import Mathlib

/-!
Shallow embedding of the interactive-surface controller in `src/js/main.js`:
carousel index cycling, form validation and the submission lifecycle, field
error state, component initialization guards, counter easing, scroll-reveal
one-shot observation, cursor trailing interpolation, and the scroll progress
bar.  JavaScript numbers that stay integral are modelled as `Int`/`Nat`;
exact-arithmetic statements about the animation math use `Rat`.  JavaScript
strings are modelled as `List Char`.
-/

/- ──────────────────────────────────────────────────────────
   Carousel (src/js/main.js, initTestimonialsCarousel)
────────────────────────────────────────────────────────── -/

/-- JavaScript `%` on integers is the truncated remainder: the sign follows
the dividend.  This is `Int.tmod`. -/
def jsRem (a b : Int) : Int := Int.tmod a b

/-- `goToSlide` (src/js/main.js:470-483) with `n = cards.length`:
`currentIndex = (index + cards.length) % cards.length`. -/
def goToSlide (n index : Int) : Int := jsRem (index + n) n

/-- Helper: for `n > 0` and `index ≥ -n` the JS remainder in `goToSlide`
agrees with the Euclidean remainder `index % n`. -/
theorem goToSlide_eq_emod (n index : Int) (hn : 0 < n) (hi : -n ≤ index) :
    goToSlide n index = index % n := by
  have hnn : (0 : Int) ≤ index + n := by linarith
  have h1 : goToSlide n index = (index + n) % n :=
    Int.tmod_eq_emod hnn (le_of_lt hn)
  have h2 : (index + n) % n = index % n := by
    rw [show index + n = index + n * 1 by ring, Int.add_mul_emod_self_left]
  rw [h1, h2]

/-- C1 fails as stated: with 5 slides, `goToSlide (-7)` stores the JavaScript
remainder `-2`, not the mathematical residue `((-7 mod 5) + 5) mod 5 = 3`,
and the stored index leaves the range `[0, 5)`. -/
theorem goToSlide_residue_counterexample :
    goToSlide 5 (-7) = -2 ∧ ((-7 : Int) % 5 + 5) % 5 = 3 ∧
    goToSlide 5 (-7) ≠ ((-7 : Int) % 5 + 5) % 5 ∧ ¬ (0 ≤ goToSlide 5 (-7)) := by
  decide

/-- C1 (amended): for every slide count `n > 0` and every integer
`index ≥ -n` — which covers every call the page produces — `goToSlide`
sets the active index to the mathematical residue `((index mod n) + n) mod n`,
a value in `[0, n)`.  For `index < -n` the code instead stores a negative
JavaScript remainder. -/
theorem goToSlide_residue (n index : Int) (hn : 0 < n) (hi : -n ≤ index) :
    goToSlide n index = ((index % n) + n) % n ∧
    0 ≤ goToSlide n index ∧ goToSlide n index < n := by
  have he := goToSlide_eq_emod n index hn hi
  have h3 : ((index % n) + n) % n = index % n := by
    rw [show index % n + n = index % n + n * 1 by ring, Int.add_mul_emod_self_left,
      Int.emod_emod_of_dvd index dvd_rfl]
  refine ⟨by rw [he, h3], ?_, ?_⟩
  · rw [he]; exact Int.emod_nonneg index (ne_of_gt hn)
  · rw [he]; exact Int.emod_lt_of_pos index hn

/-- Witness for `goToSlide_residue` at `n = 5`, `index = -1`. -/
theorem goToSlide_residue_witness :
    goToSlide 5 (-1) = (((-1 : Int) % 5) + 5) % 5 ∧
    0 ≤ goToSlide 5 (-1) ∧ goToSlide 5 (-1) < 5 :=
  goToSlide_residue 5 (-1) (by decide) (by decide)

/-- The navigation actions actually wired to `goToSlide`
(src/js/main.js:486-539): prev/next buttons, the auto-advance tick,
arrow keys, swipe gestures, and dot clicks. -/
inductive NavAction where
  | prevButton
  | nextButton
  | autoTick
  | swipeLeft
  | swipeRight
  | keyLeft
  | keyRight
  | dotClick (i : Int)

/-- The argument each navigation action passes to `goToSlide`. -/
def navTarget (cur : Int) : NavAction → Int
  | NavAction.prevButton => cur - 1
  | NavAction.nextButton => cur + 1
  | NavAction.autoTick   => cur + 1
  | NavAction.swipeLeft  => cur + 1
  | NavAction.swipeRight => cur - 1
  | NavAction.keyLeft    => cur - 1
  | NavAction.keyRight   => cur + 1
  | NavAction.dotClick i => i

/-- One navigation action applied to the current index. -/
def carouselStep (n cur : Int) (a : NavAction) : Int :=
  goToSlide n (navTarget cur a)

/-- The carousel state after init (`goToSlide(0)`, src/js/main.js:542)
followed by a sequence of navigation actions. -/
def carouselRun (n : Int) (acts : List NavAction) : Int :=
  acts.foldl (carouselStep n) (goToSlide n 0)

/-- Dot clicks carry an index of an existing dot: `0 ≤ i < n`. -/
def DotIndicesValid (n : Int) (acts : List NavAction) : Prop :=
  ∀ a ∈ acts, ∀ i, a = NavAction.dotClick i → 0 ≤ i ∧ i < n

/-- Helper: one navigation action keeps the index in `[0, n)`. -/
theorem carouselStep_range (n cur : Int) (hn : 0 < n)
    (h0 : 0 ≤ cur) (h1 : cur < n) (a : NavAction)
    (ha : ∀ i, a = NavAction.dotClick i → 0 ≤ i ∧ i < n) :
    0 ≤ carouselStep n cur a ∧ carouselStep n cur a < n := by
  have hrange : -n ≤ navTarget cur a := by
    cases a with
    | dotClick i =>
        have := ha i rfl
        simp only [navTarget]
        linarith [this.1]
    | prevButton => simp only [navTarget]; linarith
    | nextButton => simp only [navTarget]; linarith
    | autoTick => simp only [navTarget]; linarith
    | swipeLeft => simp only [navTarget]; linarith
    | swipeRight => simp only [navTarget]; linarith
    | keyLeft => simp only [navTarget]; linarith
    | keyRight => simp only [navTarget]; linarith
  have he := goToSlide_eq_emod n (navTarget cur a) hn hrange
  unfold carouselStep
  rw [he]
  exact ⟨Int.emod_nonneg _ (ne_of_gt hn), Int.emod_lt_of_pos _ hn⟩

/-- C2: starting from the initial state (`goToSlide 0`) and applying any
sequence of the actual navigation actions (with dot clicks hitting existing
dots), the invariant `0 ≤ activeIndex < n` holds in every reachable state,
for every slide count `n > 0`. -/
theorem carousel_activeIndex_invariant (n : Int) (acts : List NavAction)
    (hn : 0 < n) (hdots : DotIndicesValid n acts) :
    0 ≤ carouselRun n acts ∧ carouselRun n acts < n := by
  have hinit : 0 ≤ goToSlide n 0 ∧ goToSlide n 0 < n := by
    have he := goToSlide_eq_emod n 0 hn (by linarith)
    rw [he]
    exact ⟨Int.emod_nonneg _ (ne_of_gt hn), Int.emod_lt_of_pos _ hn⟩
  unfold carouselRun
  generalize hst : goToSlide n 0 = st at hinit
  clear hst
  induction acts generalizing st with
  | nil => exact hinit
  | cons a rest ih =>
      have hstep := carouselStep_range n st hn hinit.1 hinit.2 a
        (fun i hi => hdots a (List.mem_cons_self a rest) i hi)
      exact ih (fun b hb i hi => hdots b (List.mem_cons_of_mem a hb) i hi)
        _ hstep

/-- Witness for `carousel_activeIndex_invariant`: 5 slides, the scenario from
the spec plus a dot click. -/
theorem carousel_activeIndex_invariant_witness :
    0 ≤ carouselRun 5 [NavAction.prevButton, NavAction.nextButton,
      NavAction.nextButton, NavAction.dotClick 3, NavAction.autoTick] ∧
    carouselRun 5 [NavAction.prevButton, NavAction.nextButton,
      NavAction.nextButton, NavAction.dotClick 3, NavAction.autoTick] < 5 :=
  carousel_activeIndex_invariant 5 _ (by decide) (by
    intro a ha i hi
    fin_cases ha <;> simp_all <;> omega)

/- ──────────────────────────────────────────────────────────
   Contact form validation (src/js/main.js, validateForm)
────────────────────────────────────────────────────────── -/

/-- ASCII whitespace as matched by the JavaScript `\s` class and removed by
`String.prototype.trim` (space, tab, newline, vertical tab, form feed,
carriage return). -/
def isJsWhitespace (c : Char) : Bool :=
  c == ' ' || c == '\t' || c == '\n' || c == '\x0b' || c == '\x0c' || c == '\r'

/-- JavaScript `value.trim()`: strip whitespace from both ends. -/
def jsTrim (s : List Char) : List Char :=
  ((s.dropWhile isJsWhitespace).reverse.dropWhile isJsWhitespace).reverse

/-- The regex character class `[^\s@]`: neither whitespace nor `@`. -/
def classOk (c : Char) : Bool := !(isJsWhitespace c) && !(c == '@')

/-- `dotNotLast l` holds when `l` contains a `.` that is not its last
character (some character follows the dot). -/
def dotNotLast : List Char → Bool
  | [] => false
  | c :: rest => (c == '.' && !rest.isEmpty) || dotNotLast rest

/-- `interiorDot l` holds when `l` contains a `.` that is neither its first
nor its last character. -/
def interiorDot : List Char → Bool
  | [] => false
  | _ :: rest => dotNotLast rest

/-- The domain side of the regex, `[^\s@]+\.[^\s@]+`: every character is in
the class and some `.` sits at an interior position. -/
def domainOk (b : List Char) : Bool := b.all classOk && interiorDot b

/-- After at least one local-part character: either the next character is the
`@` followed by a `domainOk` domain, or it is another `[^\s@]` local-part
character.  (The two arms are mutually exclusive since `classOk '@'` is
false.) -/
def afterLocal : List Char → Bool
  | [] => false
  | c :: rest => (c == '@' && domainOk rest) || (classOk c && afterLocal rest)

/-- The email regex of src/js/main.js:581, `/^[^\s@]+@[^\s@]+\.[^\s@]+$/`,
as an executable matcher on the whole string. -/
def emailRegexTest : List Char → Bool
  | [] => false
  | c :: rest => classOk c && afterLocal rest

/-- Name rule (src/js/main.js:573): invalid when `value.trim().length < 2`. -/
def nomeFieldValid (v : List Char) : Bool := !((jsTrim v).length < 2 : Bool)

/-- Email rule (src/js/main.js:582): the regex applied to `value.trim()`. -/
def emailFieldValid (v : List Char) : Bool := emailRegexTest (jsTrim v)

/-- Message rule (src/js/main.js:590): invalid when `value.trim().length < 10`. -/
def mensagemFieldValid (v : List Char) : Bool := !((jsTrim v).length < 10 : Bool)

/-- The spec's description of the accepted email shape: a nonempty local
part, `@`, and a domain split by a dot into two nonempty pieces, with no
whitespace and no extra `@` in any part. -/
def SpecEmailPattern (s : List Char) : Prop :=
  ∃ l d e : List Char,
    s = l ++ '@' :: (d ++ '.' :: e) ∧
    l ≠ [] ∧ d ≠ [] ∧ e ≠ [] ∧
    (∀ c ∈ l, classOk c = true) ∧ (∀ c ∈ d, classOk c = true) ∧
    (∀ c ∈ e, classOk c = true)

/-- Helper: `dotNotLast` means a dot with something after it. -/
theorem dotNotLast_iff (l : List Char) :
    dotNotLast l = true ↔ ∃ p q, l = p ++ '.' :: q ∧ q ≠ [] := by
  induction l with
  | nil =>
      simp only [dotNotLast]
      constructor
      · intro h; exact absurd h (by simp)
      · rintro ⟨p, q, hpq, -⟩
        exact absurd hpq (by simp)
  | cons c rest ih =>
      simp only [dotNotLast, Bool.or_eq_true, Bool.and_eq_true, beq_iff_eq,
        Bool.not_eq_true', List.isEmpty_eq_false, ih]
      constructor
      · rintro (⟨rfl, hne⟩ | ⟨p, q, rfl, hq⟩)
        · exact ⟨[], rest, rfl, hne⟩
        · exact ⟨c :: p, q, rfl, hq⟩
      · rintro ⟨p, q, hpq, hq⟩
        cases p with
        | nil =>
            simp only [List.nil_append, List.cons.injEq] at hpq
            exact Or.inl ⟨hpq.1, hpq.2 ▸ hq⟩
        | cons x p' =>
            simp only [List.cons_append, List.cons.injEq] at hpq
            exact Or.inr ⟨p', q, hpq.2, hq⟩

/-- Helper: `interiorDot` means a dot with something before and after it. -/
theorem interiorDot_iff (l : List Char) :
    interiorDot l = true ↔ ∃ p q, l = p ++ '.' :: q ∧ p ≠ [] ∧ q ≠ [] := by
  cases l with
  | nil =>
      simp only [interiorDot]
      constructor
      · intro h; exact absurd h (by simp)
      · rintro ⟨p, q, hpq, -, -⟩
        exact absurd hpq (by simp)
  | cons c rest =>
      simp only [interiorDot, dotNotLast_iff]
      constructor
      · rintro ⟨p, q, rfl, hq⟩
        exact ⟨c :: p, q, rfl, by simp, hq⟩
      · rintro ⟨p, q, hpq, hp, hq⟩
        cases p with
        | nil => exact absurd rfl hp
        | cons x p' =>
            simp only [List.cons_append, List.cons.injEq] at hpq
            exact ⟨p', q, hpq.2, hq⟩

/-- Helper: `afterLocal` accepts exactly the strings
`local-rest ++ "@" ++ domain` with `domainOk` on the domain. -/
theorem afterLocal_iff (s : List Char) :
    afterLocal s = true ↔
      ∃ a r, s = a ++ '@' :: r ∧ (∀ c ∈ a, classOk c = true) ∧
        domainOk r = true := by
  induction s with
  | nil =>
      simp only [afterLocal]
      constructor
      · intro h; exact absurd h (by simp)
      · rintro ⟨a, r, har, -, -⟩
        exact absurd har (by simp)
  | cons c rest ih =>
      simp only [afterLocal, Bool.or_eq_true, Bool.and_eq_true, beq_iff_eq, ih]
      constructor
      · rintro (⟨rfl, hdom⟩ | ⟨hcls, a, r, rfl, hall, hdom⟩)
        · exact ⟨[], rest, rfl, by simp, hdom⟩
        · refine ⟨c :: a, r, rfl, ?_, hdom⟩
          intro x hx
          rcases List.mem_cons.mp hx with rfl | hx
          · exact hcls
          · exact hall x hx
      · rintro ⟨a, r, har, hall, hdom⟩
        cases a with
        | nil =>
            simp only [List.nil_append, List.cons.injEq] at har
            exact Or.inl ⟨har.1, by rw [har.2]; exact hdom⟩
        | cons x a' =>
            simp only [List.cons_append, List.cons.injEq] at har
            obtain ⟨rfl, hrest⟩ := har
            refine Or.inr ⟨hall c (by simp), a', r, hrest, ?_, hdom⟩
            intro y hy
            exact hall y (List.mem_cons_of_mem c hy)

/-- Helper: the executable regex matcher accepts exactly the strings of the
spec's email shape. -/
theorem emailRegexTest_iff_spec (s : List Char) :
    emailRegexTest s = true ↔ SpecEmailPattern s := by
  cases s with
  | nil =>
      simp only [emailRegexTest, SpecEmailPattern]
      constructor
      · intro h; exact absurd h (by simp)
      · rintro ⟨l, d, e, hs, hl, -, -, -, -, -⟩
        cases l with
        | nil => exact absurd rfl hl
        | cons x l' => exact absurd hs (by simp)
  | cons c rest =>
      simp only [emailRegexTest, Bool.and_eq_true, afterLocal_iff, SpecEmailPattern]
      constructor
      · rintro ⟨hcls, a, r, rfl, hall, hdom⟩
        simp only [domainOk, Bool.and_eq_true, interiorDot_iff, List.all_eq_true] at hdom
        obtain ⟨hrall, p, q, rfl, hp, hq⟩ := hdom
        refine ⟨c :: a, p, q, by simp, by simp, hp, hq, ?_, ?_, ?_⟩
        · intro x hx
          rcases List.mem_cons.mp hx with rfl | hx
          · exact hcls
          · exact hall x hx
        · intro x hx
          exact hrall x (by simp [hx])
        · intro x hx
          exact hrall x (by simp [hx])
      · rintro ⟨l, d, e, hs, hl, hd, he, hlall, hdall, heall⟩
        cases l with
        | nil => exact absurd rfl hl
        | cons x l' =>
            simp only [List.cons_append, List.cons.injEq] at hs
            obtain ⟨rfl, hrest⟩ := hs
            refine ⟨hlall c (by simp), l', d ++ '.' :: e, hrest, ?_, ?_⟩
            · intro y hy
              exact hlall y (List.mem_cons_of_mem c hy)
            · simp only [domainOk, Bool.and_eq_true, interiorDot_iff, List.all_eq_true]
              refine ⟨?_, d, e, rfl, hd, he⟩
              intro y hy
              rcases List.mem_append.mp hy with hy | hy
              · exact hdall y hy
              · rcases List.mem_cons.mp hy with rfl | hy
                · simp [classOk, isJsWhitespace]
                · exact heall y hy

/-- C3: the form accepts a name iff its trimmed length is at least 2, an
email iff its trimmed value matches the two-part
local-part@domain-with-a-dot pattern (no whitespace, no extra `@`), and a
message iff its trimmed length is at least 10; with the spec's concrete
examples evaluated. -/
theorem validateForm_rules :
    (∀ v, nomeFieldValid v = true ↔ 2 ≤ (jsTrim v).length) ∧
    (∀ v, emailFieldValid v = true ↔ SpecEmailPattern (jsTrim v)) ∧
    (∀ v, mensagemFieldValid v = true ↔ 10 ≤ (jsTrim v).length) ∧
    nomeFieldValid ("A".toList) = false ∧
    nomeFieldValid ("Al".toList) = true ∧
    emailFieldValid ("a@b.c".toList) = true ∧
    emailFieldValid ("a@b".toList) = false ∧
    mensagemFieldValid ("123456789".toList) = false ∧
    mensagemFieldValid ("1234567890".toList) = true := by
  refine ⟨?_, ?_, ?_, by decide, by decide, by decide, by decide, by decide,
    by decide⟩
  · intro v
    simp [nomeFieldValid, Nat.not_lt]
  · intro v
    exact emailRegexTest_iff_spec (jsTrim v)
  · intro v
    simp [mensagemFieldValid, Nat.not_lt]

/- ──────────────────────────────────────────────────────────
   Contact form submission lifecycle
   (src/js/main.js, initContactForm submit handler)
────────────────────────────────────────────────────────── -/

/-- The raw values of the five collected form controls. -/
structure ContactFormInput where
  nome : List Char
  email : List Char
  empresa : List Char
  servico : List Char
  mensagem : List Char

/-- The object handed to the submission collaborator. -/
structure SubmissionData where
  nome : List Char
  email : List Char
  empresa : List Char
  servico : List Char
  mensagem : List Char
deriving DecidableEq

/-- `formData` as built in src/js/main.js:685-691: `nome`, `email`,
`empresa` and `mensagem` are trimmed; `servico` is the select's raw value. -/
def collectFormData (f : ContactFormInput) : SubmissionData :=
  { nome := jsTrim f.nome
    email := jsTrim f.email
    empresa := jsTrim f.empresa
    servico := f.servico
    mensagem := jsTrim f.mensagem }

/-- Overall result of `validateForm` (src/js/main.js:562-597): every
validated field passes.  (`empresa` and `servico` are not validated.) -/
def formValid (f : ContactFormInput) : Bool :=
  nomeFieldValid f.nome && emailFieldValid f.email && mensagemFieldValid f.mensagem

/-- The three ways the awaited collaborator can come back
(src/js/main.js:700-710): a success result, a failure result (turned into a
thrown error), or a rejected/thrown fault. -/
inductive CollabOutcome where
  | success
  | failure
  | fault
deriving DecidableEq

/-- Observable steps of the submit handler. -/
inductive SubmitEvent where
  | focusFirstInvalid
  | setLoading
  | callCollaborator (d : SubmissionData)
  | showSuccess
  | formReset
  | showError
  | clearLoading
deriving DecidableEq

/-- The events between the collaborator call and the `finally` block,
per outcome (src/js/main.js:702-710). -/
def middleEvents : CollabOutcome → List SubmitEvent
  | CollabOutcome.success => [SubmitEvent.showSuccess, SubmitEvent.formReset]
  | CollabOutcome.failure => [SubmitEvent.showError]
  | CollabOutcome.fault => [SubmitEvent.showError]

/-- The submit handler (src/js/main.js:674-716) as the trace of its
observable steps: validate, and either focus the first invalid field and
abort, or set the loading state, call the collaborator once with the
collected data, handle the outcome, and clear the loading state in the
`finally` block. -/
def submitHandler (f : ContactFormInput) (out : CollabOutcome) :
    List SubmitEvent :=
  if formValid f then
    [SubmitEvent.setLoading, SubmitEvent.callCollaborator (collectFormData f)] ++
      middleEvents out ++ [SubmitEvent.clearLoading]
  else
    [SubmitEvent.focusFirstInvalid]

/-- The list of collaborator-call arguments appearing in a trace. -/
def collabArgs (tr : List SubmitEvent) : List SubmissionData :=
  tr.filterMap fun e =>
    match e with
    | SubmitEvent.callCollaborator d => some d
    | _ => none

/-- A fully valid concrete submission whose `servico` select value carries
surrounding whitespace. -/
def exampleInput : ContactFormInput :=
  { nome := "Ana Lima".toList
    email := "ana@lima.com".toList
    empresa := "Acme".toList
    servico := " branding ".toList
    mensagem := "Quero um site novo".toList }

/-- C4 fails as stated: this valid submission makes exactly one collaborator
call, but the argument's `servico` field is the raw select value
`" branding "`, not its trimmed form — the code never trims `servico`. -/
theorem submitHandler_trim_counterexample :
    formValid exampleInput = true ∧
    collabArgs (submitHandler exampleInput CollabOutcome.success) =
      [collectFormData exampleInput] ∧
    (collectFormData exampleInput).servico = " branding ".toList ∧
    (collectFormData exampleInput).servico ≠ jsTrim exampleInput.servico := by
  refine ⟨by decide, by decide, by decide, by decide⟩

/-- C4 (amended): for every submission whose fields all pass validation and
every collaborator outcome (success, failure result, thrown fault), the
trace makes exactly one collaborator call; its argument carries the trimmed
values of the four text fields (`nome`, `email`, `empresa`, `mensagem`) and
the untrimmed `servico` select value; the loading state is set before the
call and cleared after it, on every outcome path. -/
theorem submitHandler_lifecycle (f : ContactFormInput) (out : CollabOutcome)
    (h : formValid f = true) :
    collabArgs (submitHandler f out) = [collectFormData f] ∧
    (collectFormData f).nome = jsTrim f.nome ∧
    (collectFormData f).email = jsTrim f.email ∧
    (collectFormData f).empresa = jsTrim f.empresa ∧
    (collectFormData f).mensagem = jsTrim f.mensagem ∧
    (collectFormData f).servico = f.servico ∧
    submitHandler f out =
      [SubmitEvent.setLoading, SubmitEvent.callCollaborator (collectFormData f)]
        ++ middleEvents out ++ [SubmitEvent.clearLoading] ∧
    (∀ d, SubmitEvent.callCollaborator d ∉ middleEvents out) ∧
    SubmitEvent.setLoading ∉ middleEvents out ∧
    SubmitEvent.clearLoading ∉ middleEvents out := by
  have htrace : submitHandler f out =
      [SubmitEvent.setLoading, SubmitEvent.callCollaborator (collectFormData f)]
        ++ middleEvents out ++ [SubmitEvent.clearLoading] := by
    unfold submitHandler
    rw [h]
    simp
  refine ⟨?_, rfl, rfl, rfl, rfl, rfl, htrace, ?_, ?_, ?_⟩
  · rw [htrace]
    cases out <;> simp [collabArgs, middleEvents]
  · intro d
    cases out <;> simp [middleEvents]
  · cases out <;> simp [middleEvents]
  · cases out <;> simp [middleEvents]

/-- Witness for `submitHandler_lifecycle` on the concrete valid submission
and a faulting collaborator. -/
theorem submitHandler_lifecycle_witness :
    collabArgs (submitHandler exampleInput CollabOutcome.fault) =
      [collectFormData exampleInput] ∧
    (collectFormData exampleInput).nome = jsTrim exampleInput.nome ∧
    (collectFormData exampleInput).email = jsTrim exampleInput.email ∧
    (collectFormData exampleInput).empresa = jsTrim exampleInput.empresa ∧
    (collectFormData exampleInput).mensagem = jsTrim exampleInput.mensagem ∧
    (collectFormData exampleInput).servico = exampleInput.servico ∧
    submitHandler exampleInput CollabOutcome.fault =
      [SubmitEvent.setLoading,
        SubmitEvent.callCollaborator (collectFormData exampleInput)]
        ++ middleEvents CollabOutcome.fault ++ [SubmitEvent.clearLoading] ∧
    (∀ d, SubmitEvent.callCollaborator d ∉ middleEvents CollabOutcome.fault) ∧
    SubmitEvent.setLoading ∉ middleEvents CollabOutcome.fault ∧
    SubmitEvent.clearLoading ∉ middleEvents CollabOutcome.fault :=
  submitHandler_lifecycle exampleInput CollabOutcome.fault (by decide)

/- ──────────────────────────────────────────────────────────
   Field error state (src/js/main.js, markInvalid / blur / input)
────────────────────────────────────────────────────────── -/

/-- Observable state of one form field: its value, the `has-error` class,
the attached `.field-error` message element if any, and whether a pending
one-shot `input` listener from `markInvalid` is armed. -/
structure FieldState where
  value : List Char
  hasError : Bool
  msg : Option (List Char)
  armed : Bool
deriving DecidableEq

/-- A field starts empty, unmarked, with no message and no armed listener. -/
def fieldInit : FieldState :=
  { value := [], hasError := false, msg := none, armed := false }

/-- `markInvalid` (src/js/main.js:604-629): add the `has-error` class,
replace any previous message with the new one, and arm a one-shot `input`
listener that will remove both together. -/
def markInvalid (errText : List Char) (st : FieldState) : FieldState :=
  { st with hasError := true, msg := some errText, armed := true }

/-- The operations that touch a field's error state: an `input` event with
the new value (src/js/main.js:625-628), the blur mini-validation
(src/js/main.js:721-726), and a submit-time validation pass, which first
strips the `has-error` class (src/js/main.js:567-569), then on an invalid
value re-marks the field and on a fully valid form resets it
(src/js/main.js:704). -/
inductive FieldEvent where
  | input (s : List Char)
  | blur
  | submit

/-- One field-affecting operation.  `validator` is the field's rule from
`validateForm`; `required` tells whether the blur mini-validation applies. -/
def fieldStep (validator : List Char → Bool) (required : Bool)
    (errText : List Char) (st : FieldState) : FieldEvent → FieldState
  | FieldEvent.input s =>
      if st.armed then
        { value := s, hasError := false, msg := none, armed := false }
      else
        { st with value := s }
  | FieldEvent.blur =>
      if required && (jsTrim st.value).isEmpty then
        { st with hasError := true }
      else st
  | FieldEvent.submit =>
      let cleared := { st with hasError := false }
      if validator st.value then
        { cleared with value := [] }
      else
        markInvalid errText cleared

/-- The field state after a sequence of operations from the initial state. -/
def fieldRun (validator : List Char → Bool) (required : Bool)
    (errText : List Char) (evs : List FieldEvent) : FieldState :=
  evs.foldl (fieldStep validator required errText) fieldInit

/-- The error text `markInvalid` receives for the name field. -/
def nomeErrText : List Char :=
  "Nome deve ter ao menos 2 caracteres".toList

/-- C5 fails as stated: blurring the still-empty required name field adds the
`has-error` marker without attaching any error message, so the marker and
the message are not always set together. -/
theorem fieldError_iff_counterexample :
    (fieldRun nomeFieldValid true nomeErrText [FieldEvent.blur]).hasError
      = true ∧
    (fieldRun nomeFieldValid true nomeErrText [FieldEvent.blur]).msg
      = none ∧
    (fieldRun nomeFieldValid true nomeErrText [FieldEvent.blur]).msg.isSome
      ≠ (fieldRun nomeFieldValid true nomeErrText [FieldEvent.blur]).hasError := by
  refine ⟨by decide, by decide, by decide⟩

/-- Invariant: a message is only ever present while the field is marked, the
one-shot listener is armed, and the value still fails the validator. -/
def FieldInv (validator : List Char → Bool) (st : FieldState) : Prop :=
  st.msg.isSome = true →
    st.hasError = true ∧ st.armed = true ∧ validator st.value = false

/-- Helper: every operation preserves `FieldInv`. -/
theorem fieldStep_inv (validator : List Char → Bool) (required : Bool)
    (errText : List Char) (st : FieldState) (hst : FieldInv validator st)
    (e : FieldEvent) :
    FieldInv validator (fieldStep validator required errText st e) := by
  cases e with
  | input s =>
      by_cases ha : st.armed
      · simp [fieldStep, ha, FieldInv]
      · intro hmsg
        simp only [fieldStep, if_neg ha] at hmsg ⊢
        exact absurd (hst hmsg).2.1 ha
  | blur =>
      by_cases hb : (required && (jsTrim st.value).isEmpty) = true
      · intro hmsg
        simp only [fieldStep, if_pos hb] at hmsg ⊢
        exact ⟨trivial, (hst hmsg).2.1, (hst hmsg).2.2⟩
      · simpa only [fieldStep, if_neg hb] using hst
  | submit =>
      by_cases hv : validator st.value = true
      · intro hmsg
        simp only [fieldStep, if_pos hv] at hmsg
        exact absurd hv (by simp [(hst hmsg).2.2])
      · intro hmsg
        simp only [fieldStep, if_neg hv, markInvalid]
        exact ⟨trivial, trivial, by simpa using hv⟩

/-- Helper: `FieldInv` is preserved along any operation sequence. -/
theorem fieldFold_inv (validator : List Char → Bool) (required : Bool)
    (errText : List Char) :
    ∀ (evs : List FieldEvent) (st : FieldState), FieldInv validator st →
      FieldInv validator
        (evs.foldl (fieldStep validator required errText) st) := by
  intro evs
  induction evs with
  | nil => intro st hst; exact hst
  | cons e rest ih =>
      intro st hst
      exact ih _ (fieldStep_inv validator required errText st hst e)

/-- C5 (amended): in every state reachable through the form's operations, a
field that carries a visible error message is marked invalid (`markInvalid`
sets both together and the one-shot input handler removes both together);
the converse fails, since the blur mini-validation adds the marker without a
message. -/
theorem fieldError_msg_implies_marked (validator : List Char → Bool)
    (required : Bool) (errText : List Char) (evs : List FieldEvent)
    (h : (fieldRun validator required errText evs).msg.isSome = true) :
    (fieldRun validator required errText evs).hasError = true := by
  have hbase : FieldInv validator fieldInit := by
    intro hmsg
    simp [fieldInit] at hmsg
  exact (fieldFold_inv validator required errText evs fieldInit hbase h).1

/-- Witness for `fieldError_msg_implies_marked`: submitting the empty name
field marks it and attaches the message, and the marker is indeed set. -/
theorem fieldError_msg_implies_marked_witness :
    (fieldRun nomeFieldValid true nomeErrText [FieldEvent.submit]).hasError
      = true :=
  fieldError_msg_implies_marked nomeFieldValid true nomeErrText
    [FieldEvent.submit] (by decide)

/- ──────────────────────────────────────────────────────────
   Component initialization guards (src/js/main.js, init functions)
────────────────────────────────────────────────────────── -/

/-- Which render-surface elements exist and the two accessibility signals,
as each `init` function sees them. -/
structure PageConfig where
  hasHoverSupport : Bool
  reducedMotion : Bool
  cursorEl : Bool
  cursorDotEl : Bool
  cursorRingEl : Bool
  scrollProgressEl : Bool
  navbarEl : Bool
  heroParticlesEl : Bool
  statNumberCount : Nat
  trackEl : Bool
  prevBtnEl : Bool
  nextBtnEl : Bool
  dotsContainerEl : Bool
  cardCount : Nat
  formEl : Bool
  footerYearEl : Bool

/-- What initializing a component does: return without touching anything,
run normally, or dereference a missing element and throw. -/
inductive InitOutcome where
  | noop
  | ran
  | crashed
deriving DecidableEq

/-- `initCursor` (src/js/main.js:91-153): returns when hover support or
`#cursor` is missing; otherwise starts the animation loop, whose first
frame dereferences the dot and ring elements. -/
def initCursorModel (cfg : PageConfig) : InitOutcome :=
  if !cfg.hasHoverSupport then InitOutcome.noop
  else if !cfg.cursorEl then InitOutcome.noop
  else if !cfg.cursorDotEl || !cfg.cursorRingEl then InitOutcome.crashed
  else InitOutcome.ran

/-- `initScrollProgress` (src/js/main.js:159-183). -/
def initScrollProgressModel (cfg : PageConfig) : InitOutcome :=
  if !cfg.scrollProgressEl then InitOutcome.noop else InitOutcome.ran

/-- `initNavbar` (src/js/main.js:191-258). -/
def initNavbarModel (cfg : PageConfig) : InitOutcome :=
  if !cfg.navbarEl then InitOutcome.noop else InitOutcome.ran

/-- `initHeroParticles` (src/js/main.js:305-349). -/
def initHeroParticlesModel (cfg : PageConfig) : InitOutcome :=
  if cfg.reducedMotion then InitOutcome.noop
  else if !cfg.heroParticlesEl then InitOutcome.noop
  else InitOutcome.ran

/-- `initCounters` (src/js/main.js:356-425). -/
def initCountersModel (cfg : PageConfig) : InitOutcome :=
  if cfg.reducedMotion then InitOutcome.noop
  else if cfg.statNumberCount = 0 then InitOutcome.noop
  else InitOutcome.ran

/-- `initTestimonialsCarousel` (src/js/main.js:432-544): the guard checks
`track`, `prevBtn` and `nextBtn` but not `#testimonialDots`; with at least
one card, the dot-creation loop then calls `appendChild` on the missing
dots container and throws. -/
def initTestimonialsCarouselModel (cfg : PageConfig) : InitOutcome :=
  if !cfg.trackEl || !cfg.prevBtnEl || !cfg.nextBtnEl then InitOutcome.noop
  else if cfg.cardCount = 0 then InitOutcome.noop
  else if !cfg.dotsContainerEl then InitOutcome.crashed
  else InitOutcome.ran

/-- `initContactForm` (src/js/main.js:552-728). -/
def initContactFormModel (cfg : PageConfig) : InitOutcome :=
  if !cfg.formEl then InitOutcome.noop else InitOutcome.ran

/-- `initFooterYear` (src/js/main.js:896-901). -/
def initFooterYearModel (cfg : PageConfig) : InitOutcome :=
  if !cfg.footerYearEl then InitOutcome.noop else InitOutcome.ran

/-- A configuration whose carousel is fully wired except for the dots
container. -/
def noDotsConfig : PageConfig :=
  { hasHoverSupport := true
    reducedMotion := false
    cursorEl := true
    cursorDotEl := true
    cursorRingEl := true
    scrollProgressEl := true
    navbarEl := true
    heroParticlesEl := true
    statNumberCount := 4
    trackEl := true
    prevBtnEl := true
    nextBtnEl := true
    dotsContainerEl := false
    cardCount := 3
    formEl := true
    footerYearEl := true }

/-- C6 fails as stated: with the carousel's track and buttons present, three
slides, and only the optional `#testimonialDots` container absent, carousel
initialization crashes on a null dereference instead of silently no-oping. -/
theorem initGuards_counterexample :
    initTestimonialsCarouselModel noDotsConfig = InitOutcome.crashed ∧
    initTestimonialsCarouselModel noDotsConfig ≠ InitOutcome.noop := by
  refine ⟨by decide, by decide⟩

/-- C6 (amended): every component whose explicitly guarded element is absent
initializes as a silent no-op (cursor root or hover support, progress bar,
navbar, particles container, carousel track/prev/next or zero cards, form,
footer-year element); but the unguarded elements are genuinely required —
with the guards satisfied, a missing carousel dots container (or a missing
cursor dot or ring) crashes instead of no-oping. -/
theorem initGuards_amended (cfg : PageConfig) :
    (cfg.hasHoverSupport = false → initCursorModel cfg = InitOutcome.noop) ∧
    (cfg.cursorEl = false → initCursorModel cfg = InitOutcome.noop) ∧
    (cfg.scrollProgressEl = false →
      initScrollProgressModel cfg = InitOutcome.noop) ∧
    (cfg.navbarEl = false → initNavbarModel cfg = InitOutcome.noop) ∧
    (cfg.reducedMotion = false → cfg.heroParticlesEl = false →
      initHeroParticlesModel cfg = InitOutcome.noop) ∧
    (cfg.reducedMotion = false → cfg.statNumberCount = 0 →
      initCountersModel cfg = InitOutcome.noop) ∧
    (cfg.trackEl = false ∨ cfg.prevBtnEl = false ∨ cfg.nextBtnEl = false →
      initTestimonialsCarouselModel cfg = InitOutcome.noop) ∧
    (cfg.cardCount = 0 → initTestimonialsCarouselModel cfg = InitOutcome.noop) ∧
    (cfg.formEl = false → initContactFormModel cfg = InitOutcome.noop) ∧
    (cfg.footerYearEl = false → initFooterYearModel cfg = InitOutcome.noop) ∧
    (cfg.trackEl = true → cfg.prevBtnEl = true → cfg.nextBtnEl = true →
      0 < cfg.cardCount → cfg.dotsContainerEl = false →
      initTestimonialsCarouselModel cfg = InitOutcome.crashed) ∧
    (cfg.hasHoverSupport = true → cfg.cursorEl = true →
      cfg.cursorDotEl = false → initCursorModel cfg = InitOutcome.crashed) := by
  refine ⟨?_, ?_, ?_, ?_, ?_, ?_, ?_, ?_, ?_, ?_, ?_, ?_⟩
  · intro h; simp [initCursorModel, h]
  · intro h
    unfold initCursorModel
    cases hh : cfg.hasHoverSupport <;> simp [h]
  · intro h; simp [initScrollProgressModel, h]
  · intro h; simp [initNavbarModel, h]
  · intro h1 h2; simp [initHeroParticlesModel, h1, h2]
  · intro h1 h2; simp [initCountersModel, h1, h2]
  · intro h
    unfold initTestimonialsCarouselModel
    rcases h with h | h | h <;> simp [h]
  · intro h
    unfold initTestimonialsCarouselModel
    cases ht : cfg.trackEl <;> cases hp : cfg.prevBtnEl <;>
      cases hx : cfg.nextBtnEl <;> simp [h]
  · intro h; simp [initContactFormModel, h]
  · intro h; simp [initFooterYearModel, h]
  · intro h1 h2 h3 h4 h5
    simp [initTestimonialsCarouselModel, h1, h2, h3, h5, Nat.pos_iff_ne_zero.mp h4]
  · intro h1 h2 h3
    simp [initCursorModel, h1, h2, h3]

/-- Witness for `initGuards_amended`: on `noDotsConfig` the guarded
components with absent elements are impossible, so instantiate on a config
with everything absent for the no-op parts, and on `noDotsConfig` for the
crash part. -/
theorem initGuards_amended_witness :
    initScrollProgressModel
      { noDotsConfig with scrollProgressEl := false } = InitOutcome.noop ∧
    initTestimonialsCarouselModel noDotsConfig = InitOutcome.crashed :=
  ⟨(initGuards_amended { noDotsConfig with scrollProgressEl := false }).2.2.1
      rfl,
    (initGuards_amended noDotsConfig).2.2.2.2.2.2.2.2.2.2.1 rfl rfl rfl
      (by decide) rfl⟩

/- ──────────────────────────────────────────────────────────
   Viewport reveal engine (src/js/main.js, initScrollAnimations)
────────────────────────────────────────────────────────── -/

/-- Observable state of one reveal-flagged element: whether the
`is-revealed` class is set and whether the observer still observes it. -/
structure RevealState where
  revealed : Bool
  observed : Bool
deriving DecidableEq

/-- Init (src/js/main.js:265-298): under reduced motion every flagged
element is revealed immediately and never observed; otherwise it starts
unrevealed and observed. -/
def revealInit (reducedMotion : Bool) : RevealState :=
  if reducedMotion then { revealed := true, observed := false }
  else { revealed := false, observed := true }

/-- One intersection callback entry (src/js/main.js:281-288): entries are
delivered only for observed elements; an intersecting entry adds the class
and unobserves the element. -/
def revealStep (st : RevealState) (isIntersecting : Bool) : RevealState :=
  if st.observed && isIntersecting then { revealed := true, observed := false }
  else st

/-- State after a sequence of callback entries. -/
def revealRun (reducedMotion : Bool) (evs : List Bool) : RevealState :=
  evs.foldl revealStep (revealInit reducedMotion)

/-- The sequence of states an element passes through, initial state first. -/
def revealTrace (st : RevealState) : List Bool → List RevealState
  | [] => [st]
  | e :: evs => st :: revealTrace (revealStep st e) evs

/-- Number of `false → true` transitions in a list of Booleans read as
consecutive states. -/
def countRises : List Bool → Nat
  | [] => 0
  | [_] => 0
  | a :: b :: t => (if a = false ∧ b = true then 1 else 0) + countRises (b :: t)

/-- Helper: revealing is preserved by any further callback. -/
theorem revealStep_mono (st : RevealState) (e : Bool)
    (h : st.revealed = true) : (revealStep st e).revealed = true := by
  unfold revealStep
  by_cases hc : (st.observed && e) = true
  · rw [if_pos hc]
  · rw [if_neg hc]; exact h

/-- Helper: revealing is preserved by any callback sequence. -/
theorem revealFold_mono (evs : List Bool) :
    ∀ st : RevealState, st.revealed = true →
      (evs.foldl revealStep st).revealed = true := by
  induction evs with
  | nil => intro st h; exact h
  | cons e rest ih =>
      intro st h
      exact ih _ (revealStep_mono st e h)

/-- Helper: a trace that starts revealed has no rises at all. -/
theorem countRises_trace_of_revealed (evs : List Bool) :
    ∀ st : RevealState, st.revealed = true →
      countRises ((revealTrace st evs).map RevealState.revealed) = 0 := by
  induction evs with
  | nil => intro st h; simp [revealTrace, countRises]
  | cons e rest ih =>
      intro st h
      have hstep := revealStep_mono st e h
      have htail := ih (revealStep st e) hstep
      simp only [revealTrace, List.map_cons]
      cases rest with
      | nil =>
          simp only [revealTrace, List.map_cons, List.map_nil, countRises] at htail ⊢
          simp [h, hstep]
      | cons e2 rest2 =>
          simp only [revealTrace, List.map_cons, countRises] at htail ⊢
          rw [htail]
          simp [h, hstep]

/-- Helper: any trace has at most one rise. -/
theorem countRises_trace_le_one (evs : List Bool) :
    ∀ st : RevealState,
      countRises ((revealTrace st evs).map RevealState.revealed) ≤ 1 := by
  induction evs with
  | nil => intro st; simp [revealTrace, countRises]
  | cons e rest ih =>
      intro st
      by_cases h : st.revealed = true
      · rw [countRises_trace_of_revealed (e :: rest) st h]
        exact Nat.zero_le 1
      · simp only [revealTrace, List.map_cons]
        cases rest with
        | nil =>
            simp only [revealTrace, List.map_cons, List.map_nil, countRises]
            split <;> simp
        | cons e2 rest2 =>
            simp only [revealTrace, List.map_cons, countRises]
            by_cases hr : (revealStep st e).revealed = true
            · have hz := countRises_trace_of_revealed (e2 :: rest2)
                (revealStep st e) hr
              simp only [revealTrace, List.map_cons, countRises] at hz
              split <;> omega
            · have hone := ih (revealStep st e)
              simp only [revealTrace, List.map_cons, countRises] at hone
              have : ¬ (st.revealed = false ∧ (revealStep st e).revealed = true) :=
                fun hx => hr hx.2
              rw [if_neg this]
              omega

/-- Helper: once revealed the element is no longer observed. -/
theorem revealFold_unobserved (evs : List Bool) :
    ∀ st : RevealState, (st.revealed = true → st.observed = false) →
      ((evs.foldl revealStep st).revealed = true →
        (evs.foldl revealStep st).observed = false) := by
  induction evs with
  | nil => intro st h; exact h
  | cons e rest ih =>
      intro st h
      refine ih (revealStep st e) ?_
      unfold revealStep
      by_cases hc : (st.observed && e) = true
      · rw [if_pos hc]; intro; rfl
      · rw [if_neg hc]; exact h

/-- C8: for every reveal-flagged element and every sequence of intersection
callbacks, the revealed state rises `false → true` at most once and never
falls back; once revealed, the element is unobserved; and under the
reduced-motion preference the element is revealed immediately at init,
never observed, and stays that way with no callback needed. -/
theorem reveal_one_shot (reducedMotion : Bool) (evs : List Bool) :
    countRises ((revealTrace (revealInit reducedMotion) evs).map
      RevealState.revealed) ≤ 1 ∧
    (∀ evs2, (revealRun reducedMotion evs).revealed = true →
      (revealRun reducedMotion (evs ++ evs2)).revealed = true) ∧
    ((revealRun reducedMotion evs).revealed = true →
      (revealRun reducedMotion evs).observed = false) ∧
    (reducedMotion = true →
      revealRun reducedMotion evs = { revealed := true, observed := false }) := by
  refine ⟨countRises_trace_le_one evs (revealInit reducedMotion), ?_, ?_, ?_⟩
  · intro evs2 h
    unfold revealRun at h ⊢
    rw [List.foldl_append]
    exact revealFold_mono evs2 _ h
  · refine revealFold_unobserved evs (revealInit reducedMotion) ?_
    unfold revealInit
    cases reducedMotion <;> simp
  · intro hrm
    subst hrm
    unfold revealRun
    have : revealInit true = { revealed := true, observed := false } := by
      simp [revealInit]
    rw [this]
    induction evs with
    | nil => rfl
    | cons e rest ih =>
        simp only [List.foldl_cons]
        have hstep : revealStep { revealed := true, observed := false } e =
            { revealed := true, observed := false } := by
          simp [revealStep]
        rw [hstep]
        exact ih

/-- Witness for `reveal_one_shot`: a normal-motion element intersecting on
the second callback stays revealed through later callbacks. -/
theorem reveal_one_shot_witness :
    countRises ((revealTrace (revealInit false) [false, true, true]).map
      RevealState.revealed) ≤ 1 ∧
    (revealRun false ([false, true] ++ [true, false])).revealed = true ∧
    (revealRun false [false, true]).observed = false :=
  ⟨(reveal_one_shot false [false, true, true]).1,
    (reveal_one_shot false [false, true]).2.1 [true, false] (by decide),
    (reveal_one_shot false [false, true]).2.2.1 (by decide)⟩

/- ──────────────────────────────────────────────────────────
   Metric counter animation (src/js/main.js, animateCounter)
────────────────────────────────────────────────────────── -/

/-- `clamp` (src/js/main.js:69): `Math.min(Math.max(val, min), max)`. -/
def clampQ (val lo hi : ℚ) : ℚ := min (max val lo) hi

/-- `easeOutCubic` (src/js/main.js:379): `1 - (1 - t)^3`. -/
def easeOutCubic (t : ℚ) : ℚ := 1 - (1 - t)^3

/-- The displayed counter value at eased progress `progress`
(src/js/main.js:385): `Math.round(startVal + (target - startVal) * eased)`
with `startVal = 0`.  `round` in Mathlib rounds halves up, exactly like
`Math.round` on finite values. -/
def counterValue (target : ℕ) (progress : ℚ) : ℤ :=
  round ((0 : ℚ) + ((target : ℚ) - 0) * easeOutCubic progress)

/-- One `update` frame (src/js/main.js:381-385): progress is
`clamp(elapsed / duration, 0, 1)`, then eased, scaled and rounded. -/
def counterDisplay (target : ℕ) (elapsed duration : ℚ) : ℤ :=
  counterValue target (clampQ (elapsed / duration) 0 1)

/-- Helper: cubes preserve order on the rationals. -/
theorem cube_le_cube (a b : ℚ) (h : a ≤ b) : a^3 ≤ b^3 := by
  nlinarith [sq_nonneg (a + b), sq_nonneg (a - b), sq_nonneg a, sq_nonneg b]

/-- Helper: the displayed counter value is monotone in the progress. -/
theorem counterValue_mono (target : ℕ) (a b : ℚ) (h : a ≤ b) :
    counterValue target a ≤ counterValue target b := by
  unfold counterValue easeOutCubic
  rw [round_eq, round_eq]
  apply Int.floor_le_floor
  have hc : (1 - b)^3 ≤ (1 - a)^3 := cube_le_cube _ _ (by linarith)
  have he : (1 : ℚ) - (1 - a)^3 ≤ 1 - (1 - b)^3 := by linarith
  have hm := mul_le_mul_of_nonneg_left he
    (by positivity : (0 : ℚ) ≤ (target : ℚ))
  linarith

/-- C7: for every non-negative integer target and normalized times
`t₁ ≤ t₂` in `[0, 1]`, the frame at elapsed time `t₁ · duration` displays
`round(target · (1 − (1 − t₁)³))`, the display is monotonically
non-decreasing in time, and at elapsed = duration (t = 1) it equals exactly
the target. -/
theorem counter_display_eased (target : ℕ) (duration t1 t2 : ℚ)
    (hd : 0 < duration) (h0 : 0 ≤ t1) (h12 : t1 ≤ t2) (h1 : t2 ≤ 1) :
    counterDisplay target (t1 * duration) duration =
      round ((target : ℚ) * (1 - (1 - t1)^3)) ∧
    counterDisplay target (t1 * duration) duration ≤
      counterDisplay target (t2 * duration) duration ∧
    counterDisplay target duration duration = target := by
  have hdne : duration ≠ 0 := ne_of_gt hd
  have e1 : clampQ (t1 * duration / duration) 0 1 = t1 := by
    rw [mul_div_assoc, div_self hdne, mul_one]
    unfold clampQ
    rw [max_eq_left h0, min_eq_left (le_trans h12 h1)]
  have e2 : clampQ (t2 * duration / duration) 0 1 = t2 := by
    rw [mul_div_assoc, div_self hdne, mul_one]
    unfold clampQ
    rw [max_eq_left (le_trans h0 h12), min_eq_left h1]
  have e3 : clampQ (duration / duration) 0 1 = 1 := by
    rw [div_self hdne]
    unfold clampQ
    rw [max_eq_left (by norm_num), min_self]
  refine ⟨?_, ?_, ?_⟩
  · unfold counterDisplay
    rw [e1]
    unfold counterValue easeOutCubic
    congr 1
    ring
  · unfold counterDisplay
    rw [e1, e2]
    exact counterValue_mono target t1 t2 h12
  · unfold counterDisplay
    rw [e3]
    unfold counterValue easeOutCubic
    rw [show (0 : ℚ) + ((target : ℚ) - 0) * (1 - (1 - 1)^3) = (target : ℚ)
      by ring]
    exact round_natCast target

/-- Witness for `counter_display_eased`: target 250 over the default 2000ms,
between the midpoint and the end. -/
theorem counter_display_eased_witness :
    counterDisplay 250 ((1 / 2 : ℚ) * 2000) 2000 =
      round ((250 : ℚ) * (1 - (1 - 1 / 2)^3)) ∧
    counterDisplay 250 ((1 / 2 : ℚ) * 2000) 2000 ≤
      counterDisplay 250 ((1 : ℚ) * 2000) 2000 ∧
    counterDisplay 250 (2000 : ℚ) 2000 = 250 :=
  counter_display_eased 250 2000 (1 / 2) 1 (by norm_num) (by norm_num)
    (by norm_num) (by norm_num)

/- ──────────────────────────────────────────────────────────
   Pointer follower trailing motion (src/js/main.js, updateCursor)
────────────────────────────────────────────────────────── -/

/-- The interpolation constant of src/js/main.js:107, exactly `12/100`. -/
def LERP_FACTOR : ℚ := 12 / 100

/-- The trail ("ring") marker position. -/
structure RingState where
  ringX : ℚ
  ringY : ℚ

/-- One `updateCursor` frame (src/js/main.js:119-120):
`ring += (mouse - ring) * LERP_FACTOR` on each axis, with the lead ("dot")
marker pinned to the mouse position. -/
def updateCursorStep (mouseX mouseY : ℚ) (p : RingState) : RingState :=
  { ringX := p.ringX + (mouseX - p.ringX) * LERP_FACTOR
    ringY := p.ringY + (mouseY - p.ringY) * LERP_FACTOR }

/-- `n` animation frames with the mouse held fixed. -/
def updateCursorIter (mouseX mouseY : ℚ) (p : RingState) : Nat → RingState
  | 0 => p
  | n + 1 => updateCursorStep mouseX mouseY (updateCursorIter mouseX mouseY p n)

/-- Helper: each frame scales the remaining distance by `1 - 12/100 = 22/25`
on each axis. -/
theorem updateCursorStep_remaining (mouseX mouseY : ℚ) (p : RingState) :
    mouseX - (updateCursorStep mouseX mouseY p).ringX =
      (22 / 25) * (mouseX - p.ringX) ∧
    mouseY - (updateCursorStep mouseX mouseY p).ringY =
      (22 / 25) * (mouseY - p.ringY) := by
  refine ⟨?_, ?_⟩
  · unfold updateCursorStep LERP_FACTOR
    ring
  · unfold updateCursorStep LERP_FACTOR
    ring

/-- Helper: after `n` frames the remaining distance is `(22/25)^n` times the
initial one, per axis. -/
theorem updateCursorIter_remaining (mouseX mouseY : ℚ) (p : RingState) :
    ∀ n : ℕ,
      mouseX - (updateCursorIter mouseX mouseY p n).ringX =
        (22 / 25 : ℚ)^n * (mouseX - p.ringX) ∧
      mouseY - (updateCursorIter mouseX mouseY p n).ringY =
        (22 / 25 : ℚ)^n * (mouseY - p.ringY) := by
  intro n
  induction n with
  | zero => simp [updateCursorIter]
  | succ k ih =>
      have hstep := updateCursorStep_remaining mouseX mouseY
        (updateCursorIter mouseX mouseY p k)
      constructor
      · rw [updateCursorIter, hstep.1, ih.1]
        ring
      · rw [updateCursorIter, hstep.2, ih.2]
        ring

/-- C9: each frame multiplies the remaining lead-to-trail distance by
exactly `1 − 0.12 = 0.88` per axis; with the lead fixed, the remaining
distance after `n` frames is `0.88ⁿ` times the initial one, its magnitude
strictly shrinks every frame, and a trail that starts off the lead never
becomes exactly equal to it after any finite number of frames. -/
theorem cursor_trail_convergence (mouseX mouseY : ℚ) (p : RingState) :
    (∀ n : ℕ,
      mouseX - (updateCursorIter mouseX mouseY p n).ringX =
        (22 / 25 : ℚ)^n * (mouseX - p.ringX) ∧
      mouseY - (updateCursorIter mouseX mouseY p n).ringY =
        (22 / 25 : ℚ)^n * (mouseY - p.ringY)) ∧
    (1 - LERP_FACTOR = (22 / 25 : ℚ)) ∧
    (p.ringX ≠ mouseX → ∀ n : ℕ,
      (updateCursorIter mouseX mouseY p n).ringX ≠ mouseX) ∧
    (p.ringY ≠ mouseY → ∀ n : ℕ,
      (updateCursorIter mouseX mouseY p n).ringY ≠ mouseY) ∧
    (p.ringX ≠ mouseX → ∀ n : ℕ,
      |mouseX - (updateCursorIter mouseX mouseY p (n + 1)).ringX| <
        |mouseX - (updateCursorIter mouseX mouseY p n).ringX|) ∧
    (p.ringY ≠ mouseY → ∀ n : ℕ,
      |mouseY - (updateCursorIter mouseX mouseY p (n + 1)).ringY| <
        |mouseY - (updateCursorIter mouseX mouseY p n).ringY|) := by
  have hrem := updateCursorIter_remaining mouseX mouseY p
  have hxne : p.ringX ≠ mouseX → ∀ n : ℕ,
      mouseX - (updateCursorIter mouseX mouseY p n).ringX ≠ 0 := by
    intro hne n
    rw [(hrem n).1]
    exact mul_ne_zero (pow_ne_zero n (by norm_num))
      (sub_ne_zero.mpr (Ne.symm hne))
  have hyne : p.ringY ≠ mouseY → ∀ n : ℕ,
      mouseY - (updateCursorIter mouseX mouseY p n).ringY ≠ 0 := by
    intro hne n
    rw [(hrem n).2]
    exact mul_ne_zero (pow_ne_zero n (by norm_num))
      (sub_ne_zero.mpr (Ne.symm hne))
  refine ⟨hrem, by unfold LERP_FACTOR; norm_num, ?_, ?_, ?_, ?_⟩
  · intro hne n
    exact fun h => hxne hne n (by rw [h]; ring)
  · intro hne n
    exact fun h => hyne hne n (by rw [h]; ring)
  · intro hne n
    have hstep := (updateCursorStep_remaining mouseX mouseY
      (updateCursorIter mouseX mouseY p n)).1
    rw [show updateCursorIter mouseX mouseY p (n + 1) =
      updateCursorStep mouseX mouseY (updateCursorIter mouseX mouseY p n)
      from rfl, hstep, abs_mul, abs_of_pos (by norm_num : (0:ℚ) < 22 / 25)]
    have hpos : 0 < |mouseX - (updateCursorIter mouseX mouseY p n).ringX| :=
      abs_pos.mpr (hxne hne n)
    nlinarith
  · intro hne n
    have hstep := (updateCursorStep_remaining mouseX mouseY
      (updateCursorIter mouseX mouseY p n)).2
    rw [show updateCursorIter mouseX mouseY p (n + 1) =
      updateCursorStep mouseX mouseY (updateCursorIter mouseX mouseY p n)
      from rfl, hstep, abs_mul, abs_of_pos (by norm_num : (0:ℚ) < 22 / 25)]
    have hpos : 0 < |mouseY - (updateCursorIter mouseX mouseY p n).ringY| :=
      abs_pos.mpr (hyne hne n)
    nlinarith

/-- Witness for `cursor_trail_convergence`: trail at the origin, lead at
`(100, 50)`, checked after one frame. -/
theorem cursor_trail_convergence_witness :
    (100 : ℚ) - (updateCursorIter 100 50 { ringX := 0, ringY := 0 } 1).ringX =
      (22 / 25 : ℚ)^1 * ((100 : ℚ) - 0) ∧
    (updateCursorIter 100 50 { ringX := 0, ringY := 0 } 1).ringX ≠ 100 ∧
    |(100 : ℚ) - (updateCursorIter 100 50 { ringX := 0, ringY := 0 } 1).ringX| <
      |(100 : ℚ) - (updateCursorIter 100 50 { ringX := 0, ringY := 0 } 0).ringX| :=
  ⟨((cursor_trail_convergence 100 50 { ringX := 0, ringY := 0 }).1 1).1,
    (cursor_trail_convergence 100 50 { ringX := 0, ringY := 0 }).2.2.1
      (by norm_num) 1,
    (cursor_trail_convergence 100 50 { ringX := 0, ringY := 0 }).2.2.2.2.1
      (by norm_num) 0⟩

/- ──────────────────────────────────────────────────────────
   Scroll progress bar (src/js/main.js, initScrollProgress)
────────────────────────────────────────────────────────── -/

/-- The progress computation of src/js/main.js:173-175:
`scrollableHeight > 0 ? (scrolled / scrollableHeight) * 100 : 0`. -/
def scrollProgressValue (scrollHeight innerHeight scrollY : ℚ) : ℚ :=
  if 0 < scrollHeight - innerHeight then
    scrollY / (scrollHeight - innerHeight) * 100
  else 0

/-- The width written to the bar (src/js/main.js:177):
`clamp(progress, 0, 100)`. -/
def scrollProgressWidth (scrollHeight innerHeight scrollY : ℚ) : ℚ :=
  clampQ (scrollProgressValue scrollHeight innerHeight scrollY) 0 100

/-- C10: for all non-negative scroll metrics, a non-positive scrollable
height yields progress 0 instead of a division by zero, and the width
written is always `clamp(progress, 0, 100)`, a value in `[0, 100]`. -/
theorem scrollProgress_guarded (scrollHeight innerHeight scrollY : ℚ)
    (h1 : 0 ≤ scrollHeight) (h2 : 0 ≤ innerHeight) (h3 : 0 ≤ scrollY) :
    (scrollHeight - innerHeight ≤ 0 →
      scrollProgressValue scrollHeight innerHeight scrollY = 0) ∧
    scrollProgressWidth scrollHeight innerHeight scrollY =
      clampQ (scrollProgressValue scrollHeight innerHeight scrollY) 0 100 ∧
    0 ≤ scrollProgressWidth scrollHeight innerHeight scrollY ∧
    scrollProgressWidth scrollHeight innerHeight scrollY ≤ 100 := by
  refine ⟨?_, rfl, ?_, ?_⟩
  · intro h
    unfold scrollProgressValue
    rw [if_neg (not_lt.mpr h)]
  · unfold scrollProgressWidth clampQ
    exact le_min (le_trans (le_max_right _ _) (le_refl _)) (by norm_num)
  · unfold scrollProgressWidth clampQ
    exact min_le_right _ _

/-- Witness for `scrollProgress_guarded`: a page shorter than the viewport. -/
theorem scrollProgress_guarded_witness :
    ((500 : ℚ) - 800 ≤ 0 → scrollProgressValue 500 800 0 = 0) ∧
    scrollProgressWidth 500 800 0 =
      clampQ (scrollProgressValue 500 800 0) 0 100 ∧
    0 ≤ scrollProgressWidth 500 800 0 ∧
    scrollProgressWidth 500 800 0 ≤ 100 :=
  scrollProgress_guarded 500 800 0 (by norm_num) (by norm_num) (by norm_num)
